import Mathlib

/-!
Verification of the Heliotrope orientation fusion and calibration pipeline.

Shallow embedding of the TypeScript sources:
  * `src/ahrs-orientation.ts` — pure angle math (`smoothValue`, `normalizeHeading`,
    `applyDeclination`, `clampPitch`, `smoothOrientation`, `headingDifference`,
    `hasAllSensorReadings`, `isValidSensorReading`);
  * `src/App.tsx` — the stateful update loop `updateOrientationAHRS` and the
    asynchronous `performCalibration` continuation;
  * `src/solar.ts` — `generateSolarTable`.

JavaScript numbers are modelled exactly: finite values as rationals (`ℚ`) and the
non-finite values `Infinity`, `-Infinity`, `NaN` as extra constructors of `JSNum`.
The JS remainder operator `%` (truncating fmod) is `jsMod360` below.
-/

namespace Heliotrope

/-- A JavaScript number: a finite rational, or one of the IEEE non-finite values. -/
inductive JSNum where
  | fin (q : ℚ)
  | posInf
  | negInf
  | nan
deriving DecidableEq

namespace JSNum

/-- `Number.isFinite`. -/
def isFinite : JSNum → Bool
  | fin _ => true
  | _ => false

/-- The rational value of a finite JS number (junk value `0` otherwise; only
used under an `isFinite` guard, mirroring the source's validation order). -/
def toRat : JSNum → ℚ
  | fin q => q
  | _ => 0

/-- Subtraction of a finite rational constant, with IEEE absorption on
non-finite values (`Infinity - 360 = Infinity`, `NaN - 360 = NaN`). -/
def subQ : JSNum → ℚ → JSNum
  | fin q, c => fin (q - c)
  | posInf, _ => posInf
  | negInf, _ => negInf
  | nan, _ => nan

/-- Addition of a finite rational constant, with IEEE absorption. -/
def addQ : JSNum → ℚ → JSNum
  | fin q, c => fin (q + c)
  | posInf, _ => posInf
  | negInf, _ => negInf
  | nan, _ => nan

/-- The JS comparison `x > c` for a finite constant `c`: `Infinity > c` is true,
`-Infinity > c` and every comparison with `NaN` are false. -/
def gtQ : JSNum → ℚ → Bool
  | fin q, c => decide (c < q)
  | posInf, _ => true
  | negInf, _ => false
  | nan, _ => false

/-- The JS comparison `x < c` for a finite constant `c`. -/
def ltQ : JSNum → ℚ → Bool
  | fin q, c => decide (q < c)
  | posInf, _ => false
  | negInf, _ => true
  | nan, _ => false

end JSNum

/-- `SensorReading` from `src/ahrs-orientation.ts`: one gyroscope, accelerometer
or magnetometer sample. Components are JS numbers (possibly non-finite). -/
structure SensorReading where
  x : JSNum
  y : JSNum
  z : JSNum
deriving DecidableEq

/-- Euler angles as returned by the AHRS filter, before validation: each
component is a JS number and may be non-finite. -/
structure EulerAngles where
  heading : JSNum
  pitch : JSNum
  roll : JSNum
deriving DecidableEq

/-- `Orientation` from `src/ahrs-orientation.ts`: heading/pitch/roll in degrees.
Only built from values that already passed the finiteness guard, hence exact
rationals. -/
structure Orientation where
  heading : ℚ
  pitch : ℚ
  roll : ℚ
deriving DecidableEq

/-! ### Angle math (`src/ahrs-orientation.ts`) -/

/-- The JavaScript remainder `a % 360`: truncated division remainder, so the
result has the sign of `a` and lies in `(-360, 360)`. -/
def jsMod360 (a : ℚ) : ℚ :=
  if 0 ≤ a then a - 360 * ⌊a / 360⌋ else a - 360 * ⌈a / 360⌉

/-- `normalizeHeading` (src/ahrs-orientation.ts lines 52-60): `heading % 360`,
then add 360 if negative. The source's final `heading === 0 ? 0 : heading`
guard replaces IEEE negative zero by `+0`; exact rationals have a single zero,
so that guard is the identity here. -/
def normalizeHeading (heading : ℚ) : ℚ :=
  let h := jsMod360 heading
  if h < 0 then h + 360 else h

/-- `applyDeclination` (src/ahrs-orientation.ts): magnetic heading plus
declination/offset, normalized. -/
def applyDeclination (magneticHeading declination : ℚ) : ℚ :=
  normalizeHeading (magneticHeading + declination)

/-- `clampPitch` (src/ahrs-orientation.ts): `Math.max(-90, Math.min(90, pitch))`. -/
def clampPitch (pitch : ℚ) : ℚ :=
  max (-90) (min 90 pitch)

/-- `smoothValue` (src/ahrs-orientation.ts lines 35-44): shift `next` by ±360
when the raw difference from `prior` exceeds 180, then exponentially smooth. -/
def smoothValue (prior next smoothing : ℚ) : ℚ :=
  let next1 := if prior + 180 < next then next - 360 else next
  let next2 := if next1 < prior - 180 then next1 + 360 else next1
  prior * smoothing + next2 * (1 - smoothing)

/-- `smoothOrientation` (src/ahrs-orientation.ts lines 107-117): componentwise
`smoothValue`; heading normalized, pitch clamped, roll left as smoothed. -/
def smoothOrientation (prior next : Orientation) (smoothing : ℚ) : Orientation :=
  { heading := normalizeHeading (smoothValue prior.heading next.heading smoothing)
    pitch := clampPitch (smoothValue prior.pitch next.pitch smoothing)
    roll := smoothValue prior.roll next.roll smoothing }

/-- `hasAllSensorReadings` (src/ahrs-orientation.ts): all three latest readings
are non-null. -/
def hasAllSensorReadings (gyro accel mag : Option SensorReading) : Bool :=
  gyro.isSome && accel.isSome && mag.isSome

/-- `isValidSensorReading` (src/ahrs-orientation.ts lines 128-150): false for
null, otherwise all three components finite. -/
def isValidSensorReading : Option SensorReading → Bool
  | none => false
  | some r => r.x.isFinite && r.y.isFinite && r.z.isFinite

/-- The first while-loop of `headingDifference` (src/ahrs-orientation.ts line
173), on the exact rationals where it terminates: `while (diff > 180) diff -= 360`.
The same loop normalizes the calibration offset in `performCalibration`
(src/App.tsx line 299). -/
def reduceDown (d : ℚ) : ℚ :=
  if h : 180 < d then reduceDown (d - 360) else d
termination_by (⌊(d + 180) / 360⌋).toNat
decreasing_by
  have h360 : (0 : ℚ) < 360 := by norm_num
  have hone : (1 : ℤ) ≤ ⌊(d + 180) / 360⌋ := by
    refine Int.le_floor.mpr ?_
    rw [le_div_iff₀ h360]
    push_cast
    linarith
  have heq : ⌊(d - 360 + 180) / 360⌋ = ⌊(d + 180) / 360⌋ - 1 := by
    have : (d - 360 + 180) / 360 = (d + 180) / 360 - (1 : ℤ) := by push_cast; ring
    rw [this, Int.floor_sub_int]
  rw [heq]
  omega

/-- The second while-loop of `headingDifference` (src/ahrs-orientation.ts line
174): `while (diff < -180) diff += 360`. Also the second offset loop in
`performCalibration` (src/App.tsx line 300). -/
def reduceUp (d : ℚ) : ℚ :=
  if h : d < -180 then reduceUp (d + 360) else d
termination_by (⌊(-d + 180) / 360⌋).toNat
decreasing_by
  have h360 : (0 : ℚ) < 360 := by norm_num
  have hone : (1 : ℤ) ≤ ⌊(-d + 180) / 360⌋ := by
    refine Int.le_floor.mpr ?_
    rw [le_div_iff₀ h360]
    push_cast
    linarith
  have heq : ⌊(-(d + 360) + 180) / 360⌋ = ⌊(-d + 180) / 360⌋ - 1 := by
    have : (-(d + 360) + 180) / 360 = (-d + 180) / 360 - (1 : ℤ) := by push_cast; ring
    rw [this, Int.floor_sub_int]
  rw [heq]
  omega

/-- `headingDifference` (src/ahrs-orientation.ts lines 170-175): signed angular
difference via the two while-loops. -/
def headingDifference (heading1 heading2 : ℚ) : ℚ :=
  reduceUp (reduceDown (heading2 - heading1))

/-! ### The while-loops on raw JS numbers (for the termination analysis)

`headingDifference`'s loops and the offset loops of `performCalibration` are
`while (x > 180) x -= 360` / `while (x < -180) x += 360` on JS numbers. We model
one loop iteration budget explicitly ("fuel"): `none` means the loop has not
exited within the given budget. On `Infinity` the guard `x > 180` stays true and
`x -= 360` leaves `Infinity` unchanged, so no budget suffices. -/

/-- Fuel-indexed run of `while (d > 180) d -= 360` on a JS number. -/
def loopDownFuel : ℕ → JSNum → Option JSNum
  | 0, d => if d.gtQ 180 then none else some d
  | n + 1, d => if d.gtQ 180 then loopDownFuel n (d.subQ 360) else some d

/-- Fuel-indexed run of `while (d < -180) d += 360` on a JS number. -/
def loopUpFuel : ℕ → JSNum → Option JSNum
  | 0, d => if d.ltQ (-180) then none else some d
  | n + 1, d => if d.ltQ (-180) then loopUpFuel n (d.addQ 360) else some d

/-- Fuel-indexed `headingDifference` on raw JS numbers: both loops applied to
`heading2 - heading1`, each with its own iteration budget. -/
def headingDifferenceFuel (n m : ℕ) (heading1 heading2 : JSNum) : Option JSNum :=
  match heading1, heading2 with
  | JSNum.fin a, b => (loopDownFuel n (b.subQ a)).bind (loopUpFuel m)
  | JSNum.posInf, b => (loopDownFuel n (match b with
      | JSNum.fin _ => JSNum.negInf
      | JSNum.posInf => JSNum.nan
      | JSNum.negInf => JSNum.negInf
      | JSNum.nan => JSNum.nan)).bind (loopUpFuel m)
  | JSNum.negInf, b => (loopDownFuel n (match b with
      | JSNum.fin _ => JSNum.posInf
      | JSNum.posInf => JSNum.posInf
      | JSNum.negInf => JSNum.nan
      | JSNum.nan => JSNum.nan)).bind (loopUpFuel m)
  | JSNum.nan, _ => (loopDownFuel n JSNum.nan).bind (loopUpFuel m)

/-! ### The orientation pipeline (`src/App.tsx`) -/

/-- A published solar position: `{time, elevation}` with the time as epoch
milliseconds and the elevation rounded to an integer (src/solar.ts). -/
structure SolarPosition where
  time : ℤ
  elevation : ℤ
deriving DecidableEq

/-- The mutable state touched by `updateOrientationAHRS` and
`performCalibration` in `src/App.tsx`:
  * `filterGen` / `filterUpdates` model the Madgwick filter object abstractly:
    `filterGen` counts wholesale replacements of the filter (`new Madgwick`),
    `filterUpdates` counts `madgwick.update` calls on the current filter;
  * `resetCount` is a history variable counting filter resets (for the
    exactly-one-reset property);
  * `failureCount` is `ahrsFailureCountRef`;
  * `headingOffset` is `headingOffsetRef`, `lastCalibrationTime` is
    `lastCalibrationTimeRef` (epoch ms, `0` = never calibrated);
  * `calibrationInProgress` is `calibrationInProgressRef`, `isCalibrated` the
    `isCalibrated` React state;
  * `prior` is `priorOrientationRef`, `published` the `orientation` React state
    set by `setOrientation`;
  * `solarPublished` is the `solarPosition` React state: `none` = never set,
    `some none` = set from an empty table slot. -/
structure PState where
  filterGen : ℕ
  filterUpdates : ℕ
  failureCount : ℕ
  resetCount : ℕ
  headingOffset : ℚ
  lastCalibrationTime : ℤ
  calibrationInProgress : Bool
  isCalibrated : Bool
  prior : Option Orientation
  published : Option Orientation
  solarPublished : Option (Option SolarPosition)
deriving DecidableEq

/-- The state at mount: counters zero, no calibration ever, nothing published. -/
def initState : PState :=
  { filterGen := 0, filterUpdates := 0, failureCount := 0, resetCount := 0
    headingOffset := 0, lastCalibrationTime := 0
    calibrationInProgress := false, isCalibrated := false
    prior := none, published := none, solarPublished := none }

/-- One invocation's inputs to `updateOrientationAHRS`: the three latest sensor
readings (`null` = not yet arrived), the Euler angles the filter returns from
`getEulerAngles()` after this `update` call, and `Date.now()`.

The Madgwick filter itself is an external library (`ahrs` on npm, not part of
this repository), so its output is an oracle input of the step. The source
converts the returned radians to degrees by the fixed positive linear bijection
`x * (180 / Math.PI)`, which preserves finiteness in both directions; `euler`
here ranges over the already-converted degree values, which covers exactly the
same set of behaviours. -/
structure StepInput where
  gyro : Option SensorReading
  accel : Option SensorReading
  mag : Option SensorReading
  euler : EulerAngles
  now : ℤ
deriving DecidableEq

/-- `MAX_AHRS_FAILURES` (src/App.tsx line 217). -/
def MAX_AHRS_FAILURES : ℕ := 10

/-- `CALIBRATION_INTERVAL_MS` (src/App.tsx line 50). -/
def CALIBRATION_INTERVAL_MS : ℤ := 30000

/-- `CALIBRATION_PITCH_THRESHOLD` (src/App.tsx line 51). -/
def CALIBRATION_PITCH_THRESHOLD : ℚ := 15

/-- Result of one `updateOrientationAHRS` invocation: the new state, plus
whether this invocation actually started a calibration attempt (i.e. reached
the `performCalibration` call and passed its `calibrationInProgress` guard). -/
structure StepResult where
  state : PState
  calibrationStarted : Bool
deriving DecidableEq

/-- Filter reset (src/App.tsx lines 361-367): replace the Madgwick object
wholesale and zero the failure counter. -/
def resetFilter (st : PState) : PState :=
  { st with filterGen := st.filterGen + 1, filterUpdates := 0
            failureCount := 0, resetCount := st.resetCount + 1 }

/-- `Math.floor(heading) % 360` (src/App.tsx line 411). The heading reaching
this point is a `normalizeHeading`/`applyDeclination` output, hence in
`[0, 360)` and with non-negative floor (`toNat` is exact on it). -/
def solarIndex (heading : ℚ) : Fin 360 :=
  ⟨⌊heading⌋.toNat % 360, Nat.mod_lt _ (by norm_num)⟩

/-- The success path of `updateOrientationAHRS` (src/App.tsx lines 373-414):
runs on the state after the failure counter was zeroed. Computes the
calibration trigger from the pre-offset heading, fires `performCalibration`
(modelled by the `calibrationStarted` flag plus setting `calibrationInProgress`;
the asynchronous remainder is `completeCalibration` below), applies the stored
offset, smooths against the prior orientation when one exists, publishes the
orientation and, when a solar table is available, the solar position. -/
def stepSuccess (table : Option (Fin 360 → Option SolarPosition))
    (st : PState) (inp : StepInput) : StepResult :=
  let heading := inp.euler.heading.toRat
  let pitch := inp.euler.pitch.toRat
  let roll := inp.euler.roll.toRat
  let isFirstReading := decide (st.lastCalibrationTime = 0)
  let isLevel := decide (|pitch| < CALIBRATION_PITCH_THRESHOLD)
  let intervalElapsed := decide (CALIBRATION_INTERVAL_MS ≤ inp.now - st.lastCalibrationTime)
  let started := (isFirstReading || (isLevel && intervalElapsed)) && !st.calibrationInProgress
  let st1 := if started then { st with calibrationInProgress := true } else st
  let heading2 := applyDeclination heading st1.headingOffset
  let next : Orientation := { heading := heading2, pitch := pitch, roll := roll }
  let newO := match st1.prior with
    | some p => smoothOrientation p next (1/5)
    | none => next
  let st2 := { st1 with prior := some newO, published := some newO }
  match table with
  | none => { state := st2, calibrationStarted := started }
  | some t =>
      { state := { st2 with solarPublished := some (t (solarIndex newO.heading)) }
        calibrationStarted := started }

/-- The part of `updateOrientationAHRS` after `madgwick.update` (src/App.tsx
lines 343-372): validate the Euler angles; on a non-finite component increment
the failure counter, resetting the filter at the threshold; on success zero the
failure counter and continue with `stepSuccess`. -/
def stepFiltered (table : Option (Fin 360 → Option SolarPosition))
    (st : PState) (inp : StepInput) : StepResult :=
  if (inp.euler.heading.isFinite && inp.euler.pitch.isFinite && inp.euler.roll.isFinite) = false then
    if MAX_AHRS_FAILURES ≤ st.failureCount + 1 then
      { state := resetFilter st, calibrationStarted := false }
    else
      { state := { st with failureCount := st.failureCount + 1 }
        calibrationStarted := false }
  else
    stepSuccess table { st with failureCount := 0 } inp

/-- One invocation of `updateOrientationAHRS` (src/App.tsx lines 321-414).
Returns without touching anything unless all three readings are present
(`hasAllSensorReadings`) and each is finite (`isValidSensorReading`); otherwise
advances the filter by one `madgwick.update` call and continues. The
`!madgwick` null-check is dropped: the ref is initialized at mount and only
ever replaced by a fresh filter. -/
def step (table : Option (Fin 360 → Option SolarPosition))
    (st : PState) (inp : StepInput) : StepResult :=
  if hasAllSensorReadings inp.gyro inp.accel inp.mag = false then
    { state := st, calibrationStarted := false }
  else if (isValidSensorReading inp.gyro && isValidSensorReading inp.accel
      && isValidSensorReading inp.mag) = false then
    { state := st, calibrationStarted := false }
  else
    stepFiltered table { st with filterUpdates := st.filterUpdates + 1 } inp

/-- Run a sequence of `updateOrientationAHRS` invocations, keeping the state. -/
def runSteps (table : Option (Fin 360 → Option SolarPosition))
    (st : PState) (inps : List StepInput) : PState :=
  inps.foldl (fun s i => (step table s i).state) st

/-- The asynchronous remainder of `performCalibration` (src/App.tsx lines
285-315), from `await Location.getHeadingAsync()` to the `finally`: runs for a
previously started attempt. `ios` is the reference reading's `trueHeading`
(`none` = the call failed or returned a falsy object), `ahrsHeading`/`pitch`
are the values captured at the trigger, `now` is `Date.now()` at completion.
If the reference is present and finite: flip it by 180 (mod 360) when
`|pitch| > 45`, store the loop-normalized offset and the timestamp, and mark
calibrated. Otherwise no field changes except clearing the in-progress flag. -/
def completeCalibration (st : PState) (ahrsHeading pitch : ℚ)
    (ios : Option JSNum) (now : ℤ) : PState :=
  match ios with
  | some h =>
      if h.isFinite then
        let correctedIosHeading :=
          if 45 < |pitch| then jsMod360 (h.toRat + 180) else h.toRat
        let offset := reduceUp (reduceDown (correctedIosHeading - ahrsHeading))
        { st with headingOffset := offset, lastCalibrationTime := now
                  isCalibrated := true, calibrationInProgress := false }
      else
        { st with calibrationInProgress := false }
  | none => { st with calibrationInProgress := false }

/-! ### The solar table (`src/solar.ts`) -/

/-- The sun's position (azimuth, elevation in degrees) for a given whole minute
of the 24-hour window. `SunSector` is an external library (`sun-sector` on
npm), so its per-minute output is an oracle input of the generator. -/
structure SunPos where
  azimuth : ℚ
  elevation : ℚ

/-- The entry written for minute `m`: `{time: start + m*60e3, elevation:
Math.round(sun.elevation)}`. JS `Math.round` is floor of `x + 1/2`. -/
def solarEntry (start : ℤ) (sun : ℕ → SunPos) (m : ℕ) : SolarPosition :=
  { time := start + m * 60000, elevation := ⌊(sun m).elevation + 1/2⌋ }

/-- The table after processing minutes `0, …, n-1`, starting from
`Array(360).fill(null)`: minute `m` writes its entry at index
`Math.floor(sun.azimuth)`. (`List.set` ignores out-of-range indices; the
faithfulness hypothesis is that azimuths lie in `[0, 360)`.) -/
def solarTableAux (sun : ℕ → SunPos) (start : ℤ) (n : ℕ) : List (Option SolarPosition) :=
  (List.range n).foldl
    (fun table m => table.set (⌊(sun m).azimuth⌋).toNat (some (solarEntry start sun m)))
    (List.replicate 360 none)

/-- `generateSolarTable` (src/solar.ts lines 10-29): the 1440 whole minutes of
the 24-hour window starting at `start = Date.now()`. -/
def generateSolarTable (sun : ℕ → SunPos) (start : ℤ) : List (Option SolarPosition) :=
  solarTableAux sun start 1440

/-- Specification-side description of one slot: among the minutes `0, …, n-1`
whose azimuth bucket is `i`, the last one wins; `none` when there is none. -/
def slotSpecAux (sun : ℕ → SunPos) (start : ℤ) (n i : ℕ) : Option SolarPosition :=
  (((List.range n).filter (fun m => (⌊(sun m).azimuth⌋).toNat = i)).getLast?).map
    (solarEntry start sun)

/-- Specification-side description of slot `i` of the full table. -/
def slotSpec (sun : ℕ → SunPos) (start : ℤ) (i : ℕ) : Option SolarPosition :=
  slotSpecAux sun start 1440 i

/-! ### Concrete inputs used in witnesses and counterexamples -/

/-- An all-zero (finite, valid) sensor reading. -/
def finReading : SensorReading :=
  { x := JSNum.fin 0, y := JSNum.fin 0, z := JSNum.fin 0 }

/-- A sensor reading with a NaN component. -/
def nanReading : SensorReading :=
  { x := JSNum.nan, y := JSNum.fin 0, z := JSNum.fin 0 }

/-- All sensors present and valid, Euler output finite and level. -/
def goodInput : StepInput :=
  { gyro := some finReading, accel := some finReading, mag := some finReading
    euler := { heading := JSNum.fin 0, pitch := JSNum.fin 0, roll := JSNum.fin 0 }
    now := 0 }

/-- All sensors present and valid, but the filter returns a NaN heading. -/
def badEulerInput : StepInput :=
  { gyro := some finReading, accel := some finReading, mag := some finReading
    euler := { heading := JSNum.nan, pitch := JSNum.fin 0, roll := JSNum.fin 0 }
    now := 0 }

/-- All sensors present, but the gyroscope reading has a NaN component. -/
def invalidSensorInput : StepInput :=
  { gyro := some nanReading, accel := some finReading, mag := some finReading
    euler := { heading := JSNum.fin 0, pitch := JSNum.fin 0, roll := JSNum.fin 0 }
    now := 0 }

/-- Valid sensors, finite Euler angles with a 100° pitch (beyond the clamp
range; the pipeline's first frame publishes it unclamped). -/
def steepPitchInput : StepInput :=
  { gyro := some finReading, accel := some finReading, mag := some finReading
    euler := { heading := JSNum.fin 0, pitch := JSNum.fin 100, roll := JSNum.fin 0 }
    now := 0 }

/-- Valid sensors, finite Euler angles with an 80° pitch (not level). -/
def tiltedPitchInput : StepInput :=
  { gyro := some finReading, accel := some finReading, mag := some finReading
    euler := { heading := JSNum.fin 0, pitch := JSNum.fin 80, roll := JSNum.fin 0 }
    now := 0 }

/-- All three sensor-validation conditions of `updateOrientationAHRS` in one
boolean: readings present and finite. -/
def sensorsOk (inp : StepInput) : Bool :=
  hasAllSensorReadings inp.gyro inp.accel inp.mag
    && (isValidSensorReading inp.gyro && isValidSensorReading inp.accel
        && isValidSensorReading inp.mag)

/-- The Euler-angle validation of `updateOrientationAHRS`: all three components
finite. -/
def eulerOk (e : EulerAngles) : Bool :=
  e.heading.isFinite && e.pitch.isFinite && e.roll.isFinite

/-- An update that passes sensor validation but whose Euler angles have a
non-finite component (the `Degraded` sub-condition). -/
def degradedInput (inp : StepInput) : Bool :=
  sensorsOk inp && !(eulerOk inp.euler)

/-- The orientation the success path publishes: offset-corrected heading,
smoothed against the prior orientation when one exists. -/
def pipeOrient (st : PState) (inp : StepInput) : Orientation :=
  let next : Orientation :=
    { heading := applyDeclination inp.euler.heading.toRat st.headingOffset
      pitch := inp.euler.pitch.toRat
      roll := inp.euler.roll.toRat }
  match st.prior with
  | some p => smoothOrientation p next (1/5)
  | none => next

/-! ### Arithmetic helper lemmas -/

lemma jsMod360_bounds_nonneg (a : ℚ) (ha : 0 ≤ a) :
    0 ≤ jsMod360 a ∧ jsMod360 a < 360 := by
  rw [jsMod360, if_pos ha]
  have h1 : (⌊a / 360⌋ : ℚ) ≤ a / 360 := Int.floor_le _
  have h2 : a / 360 < ⌊a / 360⌋ + 1 := Int.lt_floor_add_one _
  have h3 : a / 360 * 360 = a := div_mul_cancel₀ a (by norm_num)
  constructor <;> nlinarith

lemma jsMod360_bounds_neg (a : ℚ) (ha : a < 0) :
    -360 < jsMod360 a ∧ jsMod360 a ≤ 0 := by
  rw [jsMod360, if_neg (not_le.mpr ha)]
  have h1 : a / 360 ≤ (⌈a / 360⌉ : ℚ) := Int.le_ceil _
  have h2 : (⌈a / 360⌉ : ℚ) < a / 360 + 1 := Int.ceil_lt_add_one _
  have h3 : a / 360 * 360 = a := div_mul_cancel₀ a (by norm_num)
  constructor <;> nlinarith

lemma jsMod360_exists_int (a : ℚ) : ∃ k : ℤ, jsMod360 a = a - 360 * k := by
  rw [jsMod360]
  split
  · exact ⟨⌊a / 360⌋, rfl⟩
  · exact ⟨⌈a / 360⌉, rfl⟩

lemma normalizeHeading_bounds (h : ℚ) :
    0 ≤ normalizeHeading h ∧ normalizeHeading h < 360 := by
  rw [normalizeHeading]
  rcases le_or_lt 0 h with hc | hc
  · obtain ⟨h1, h2⟩ := jsMod360_bounds_nonneg h hc
    rw [if_neg (not_lt.mpr h1)]
    exact ⟨h1, h2⟩
  · obtain ⟨h1, h2⟩ := jsMod360_bounds_neg h hc
    rcases lt_or_eq_of_le h2 with h3 | h3
    · rw [if_pos h3]
      constructor <;> linarith
    · rw [h3, if_neg (by norm_num)]
      norm_num

lemma normalizeHeading_exists_int (h : ℚ) :
    ∃ k : ℤ, normalizeHeading h = h - 360 * k := by
  obtain ⟨k, hk⟩ := jsMod360_exists_int h
  rw [normalizeHeading]
  split
  · exact ⟨k - 1, by rw [hk]; push_cast; ring⟩
  · exact ⟨k, hk⟩

lemma clampPitch_bounds (p : ℚ) : -90 ≤ clampPitch p ∧ clampPitch p ≤ 90 := by
  refine ⟨le_max_left _ _, max_le (by norm_num) (min_le_left _ _)⟩

lemma smoothOrientation_bounds (prior next : Orientation) (s : ℚ) :
    0 ≤ (smoothOrientation prior next s).heading ∧
    (smoothOrientation prior next s).heading < 360 ∧
    -90 ≤ (smoothOrientation prior next s).pitch ∧
    (smoothOrientation prior next s).pitch ≤ 90 := by
  obtain ⟨h1, h2⟩ := normalizeHeading_bounds (smoothValue prior.heading next.heading s)
  obtain ⟨h3, h4⟩ := clampPitch_bounds (smoothValue prior.pitch next.pitch s)
  exact ⟨h1, h2, h3, h4⟩

lemma reduceDown_eq_self {d : ℚ} (h : d ≤ 180) : reduceDown d = d := by
  rw [reduceDown, dif_neg (not_lt.mpr h)]

lemma reduceDown_le (d : ℚ) : reduceDown d ≤ 180 := by
  induction d using reduceDown.induct with
  | case1 d h ih => rw [reduceDown, dif_pos h]; exact ih
  | case2 d h => rw [reduceDown, dif_neg h]; exact not_lt.mp h

lemma reduceDown_ge (d : ℚ) : -180 ≤ d → -180 ≤ reduceDown d := by
  induction d using reduceDown.induct with
  | case1 d h ih =>
      intro _
      rw [reduceDown, dif_pos h]
      exact ih (by linarith)
  | case2 d h =>
      intro hd
      rw [reduceDown, dif_neg h]
      exact hd

lemma reduceDown_exists_int (d : ℚ) : ∃ k : ℤ, reduceDown d = d - 360 * k := by
  induction d using reduceDown.induct with
  | case1 d h ih =>
      obtain ⟨k, hk⟩ := ih
      exact ⟨k + 1, by rw [reduceDown, dif_pos h, hk]; push_cast; ring⟩
  | case2 d h =>
      exact ⟨0, by rw [reduceDown, dif_neg h]; norm_num⟩

lemma reduceUp_eq_self {d : ℚ} (h : -180 ≤ d) : reduceUp d = d := by
  rw [reduceUp, dif_neg (not_lt.mpr h)]

lemma reduceUp_ge (d : ℚ) : -180 ≤ reduceUp d := by
  induction d using reduceUp.induct with
  | case1 d h ih => rw [reduceUp, dif_pos h]; exact ih
  | case2 d h => rw [reduceUp, dif_neg h]; exact not_lt.mp h

lemma reduceUp_le (d : ℚ) : d ≤ 180 → reduceUp d ≤ 180 := by
  induction d using reduceUp.induct with
  | case1 d h ih =>
      intro _
      rw [reduceUp, dif_pos h]
      exact ih (by linarith)
  | case2 d h =>
      intro hd
      rw [reduceUp, dif_neg h]
      exact hd

lemma reduceUp_exists_int (d : ℚ) : ∃ k : ℤ, reduceUp d = d + 360 * k := by
  induction d using reduceUp.induct with
  | case1 d h ih =>
      obtain ⟨k, hk⟩ := ih
      exact ⟨k + 1, by rw [reduceUp, dif_pos h, hk]; push_cast; ring⟩
  | case2 d h =>
      exact ⟨0, by rw [reduceUp, dif_neg h]; norm_num⟩

lemma headingDifference_bounds (a b : ℚ) :
    -180 ≤ headingDifference a b ∧ headingDifference a b ≤ 180 :=
  ⟨reduceUp_ge _, reduceUp_le _ (reduceDown_le _)⟩

lemma headingDifference_exists_int (a b : ℚ) :
    ∃ k : ℤ, headingDifference a b = b - a - 360 * k := by
  obtain ⟨k1, hk1⟩ := reduceDown_exists_int (b - a)
  obtain ⟨k2, hk2⟩ := reduceUp_exists_int (reduceDown (b - a))
  exact ⟨k1 - k2, by rw [headingDifference, hk2, hk1]; push_cast; ring⟩

lemma normalizeHeading_of_mem {h : ℚ} (h0 : 0 ≤ h) (h1 : h < 360) :
    normalizeHeading h = h := by
  rw [normalizeHeading]
  have hf : ⌊h / 360⌋ = 0 :=
    Int.floor_eq_zero_iff.mpr ⟨by positivity, by rw [div_lt_one (by norm_num)]; linarith⟩
  rw [jsMod360, if_pos h0, hf]
  have h2 : h - 360 * ((0 : ℤ) : ℚ) = h := by push_cast; ring
  rw [h2, if_neg (not_lt.mpr h0)]

/-! ### Pipeline step lemmas -/

lemma step_of_sensorsOk {inp : StepInput} (h : sensorsOk inp = true)
    (table : Option (Fin 360 → Option SolarPosition)) (st : PState) :
    step table st inp
      = stepFiltered table { st with filterUpdates := st.filterUpdates + 1 } inp := by
  rw [sensorsOk, Bool.and_eq_true] at h
  rw [step, h.1, h.2]
  simp

lemma step_of_degraded {inp : StepInput} (h : degradedInput inp = true)
    (table : Option (Fin 360 → Option SolarPosition)) (st : PState) :
    step table st inp
      = if MAX_AHRS_FAILURES ≤ st.failureCount + 1 then
          { state := resetFilter { st with filterUpdates := st.filterUpdates + 1 }
            calibrationStarted := false }
        else
          { state := { st with filterUpdates := st.filterUpdates + 1
                               failureCount := st.failureCount + 1 }
            calibrationStarted := false } := by
  rw [degradedInput, Bool.and_eq_true] at h
  obtain ⟨hs, hb⟩ := h
  rw [step_of_sensorsOk hs, stepFiltered]
  rw [Bool.not_eq_true'] at hb
  rw [eulerOk] at hb
  rw [hb]
  simp

lemma step_of_success {inp : StepInput} (hs : sensorsOk inp = true)
    (he : eulerOk inp.euler = true)
    (table : Option (Fin 360 → Option SolarPosition)) (st : PState) :
    step table st inp
      = stepSuccess table
          { st with filterUpdates := st.filterUpdates + 1, failureCount := 0 } inp := by
  rw [step_of_sensorsOk hs, stepFiltered]
  rw [eulerOk] at he
  rw [he]
  simp

lemma stepSuccess_published (table : Option (Fin 360 → Option SolarPosition))
    (st : PState) (inp : StepInput) :
    (stepSuccess table st inp).state.published = some (pipeOrient st inp)
      ∧ (stepSuccess table st inp).state.prior = some (pipeOrient st inp) := by
  simp only [stepSuccess.eq_def, pipeOrient.eq_def]
  cases table <;> split <;> split <;> simp

lemma stepSuccess_failureCount (table : Option (Fin 360 → Option SolarPosition))
    (st : PState) (inp : StepInput) :
    (stepSuccess table st inp).state.failureCount = st.failureCount := by
  simp only [stepSuccess.eq_def]
  cases table <;> split <;> split <;> simp

/-! ### Claim theorems -/

/-- C4, counterexample. The claim says `smoothValue(prior, next, 0)` yields
`next` unchanged for every real `prior` and `next`; but when the raw difference
exceeds 180° the wraparound shift is already folded in, so
`smoothValue(0, 200, 0) = -160 ≠ 200`. -/
theorem smoothValueZeroShift :
    smoothValue 0 200 0 = -160 ∧ smoothValue 0 200 0 ≠ 200 := by
  norm_num [smoothValue]

/-- C4, amended. `smoothValue` first shifts `next` by ±360 when the raw
difference from `prior` exceeds 180°, then returns
`prior*smoothing + next*(1-smoothing)`. Hence `smoothing = 0` returns `next`
unchanged whenever `|next - prior| ≤ 180`, and in general returns `next` up to
that ±360 shift (congruent to `next` mod 360); `smoothing = 1` always returns
`prior` unchanged; `smoothValue(100,200,0) = 200`, `smoothValue(100,200,1) =
100`, and `smoothValue(350,10,0.2) = 366` (pre-normalization). -/
theorem smoothValueSpec :
    (∀ prior next : ℚ, |next - prior| ≤ 180 → smoothValue prior next 0 = next) ∧
    (∀ prior next : ℚ, ∃ k : ℤ, smoothValue prior next 0 = next + 360 * k) ∧
    (∀ prior next : ℚ, smoothValue prior next 1 = prior) ∧
    smoothValue 100 200 0 = 200 ∧ smoothValue 100 200 1 = 100 ∧
    smoothValue 350 10 (1/5) = 366 := by
  refine ⟨?_, ?_, ?_, ?_, ?_, ?_⟩
  · intro p n h
    rw [abs_le] at h
    simp only [smoothValue]
    have h1 : ¬ (p + 180 < n) := by linarith [h.2]
    rw [if_neg h1]
    have h2 : ¬ (n < p - 180) := by linarith [h.1]
    rw [if_neg h2]
    ring
  · intro p n
    simp only [smoothValue]
    split_ifs with h1 h2 h3
    · exact ⟨0, by push_cast; ring⟩
    · exact ⟨-1, by push_cast; ring⟩
    · exact ⟨1, by push_cast; ring⟩
    · exact ⟨0, by push_cast; ring⟩
  · intro p n
    simp only [smoothValue]
    split_ifs <;> ring
  · norm_num [smoothValue]
  · norm_num [smoothValue]
  · norm_num [smoothValue]

/-- C4, witness for the hypothesis of the first conjunct of `smoothValueSpec`:
at `prior = 0`, `next = 10` the raw difference is within 180°, and smoothing 0
returns `next` unchanged. -/
theorem smoothValueSpecWitness :
    |(10 : ℚ) - 0| ≤ 180 ∧ smoothValue 0 10 0 = 10 :=
  ⟨by norm_num, smoothValueSpec.1 0 10 (by norm_num)⟩

/-- C7. `normalizeHeading` lands in `[0, 360)` for every rational input, is a
reduction mod 360 (negative inputs wrap forward), `normalizeHeading 360 = 0`
and `normalizeHeading (-10) = 350`. Exact rationals have a single zero, so the
source's negative-zero guard (`heading === 0 ? 0 : heading`) is the identity
here and the "never returns negative zero" clause is subsumed by `0 ≤ ·`. -/
theorem normalizeHeadingSpec :
    (∀ h : ℚ, 0 ≤ normalizeHeading h ∧ normalizeHeading h < 360) ∧
    (∀ h : ℚ, ∃ k : ℤ, normalizeHeading h = h - 360 * k) ∧
    normalizeHeading 360 = 0 ∧ normalizeHeading (-10) = 350 := by
  refine ⟨normalizeHeading_bounds, normalizeHeading_exists_int, ?_, ?_⟩
  · norm_num [normalizeHeading, jsMod360]
  · have hc : (⌈(-10 : ℚ) / 360⌉ : ℤ) = 0 := by
      rw [Int.ceil_eq_zero_iff]
      constructor <;> norm_num
    have hm : jsMod360 (-10) = -10 := by
      rw [jsMod360, if_neg (by norm_num), hc]
      norm_num
    rw [normalizeHeading, hm, if_pos (by norm_num)]
    norm_num

/-- C8, counterexample. The claim says `headingDifference` lands in
`(-180, 180]`, but the loops leave an exact `-180` untouched:
`headingDifference(180, 0) = -180`, which is outside `(-180, 180]`. (The
repository's own test suite expects exactly this value.) -/
theorem headingDifferenceBoundary :
    headingDifference 180 0 = -180 ∧
    headingDifference 180 0 ∉ Set.Ioc (-180 : ℚ) 180 := by
  have h1 : headingDifference 180 0 = -180 := by
    rw [headingDifference]
    have hd : (0 : ℚ) - 180 = -180 := by norm_num
    rw [hd, reduceDown_eq_self (by norm_num), reduceUp_eq_self (by norm_num)]
  refine ⟨h1, ?_⟩
  rw [h1, Set.mem_Ioc]
  norm_num

/-- C8, amended. `headingDifference(a, b)` lies in the closed interval
`[-180, 180]` (both endpoints are attained) and is congruent to `b - a` mod
360 — the shortest signed angular path, with `-180` rather than `+180`
returned for some antipodal pairs; `headingDifference(350,10) = 20`,
`headingDifference(10,350) = -20`, and `headingDifference(x,x) = 0`. -/
theorem headingDifferenceSpec :
    (∀ a b : ℚ, -180 ≤ headingDifference a b ∧ headingDifference a b ≤ 180) ∧
    (∀ a b : ℚ, ∃ k : ℤ, headingDifference a b = b - a - 360 * k) ∧
    headingDifference 350 10 = 20 ∧ headingDifference 10 350 = -20 ∧
    (∀ x : ℚ, headingDifference x x = 0) := by
  refine ⟨headingDifference_bounds, headingDifference_exists_int, ?_, ?_, ?_⟩
  · rw [headingDifference]
    have hd : (10 : ℚ) - 350 = -340 := by norm_num
    rw [hd, reduceDown_eq_self (by norm_num)]
    have hs : reduceUp (-340 : ℚ) = reduceUp (-340 + 360) := by
      rw [reduceUp, dif_pos (by norm_num)]
    rw [hs]
    have hd2 : (-340 : ℚ) + 360 = 20 := by norm_num
    rw [hd2, reduceUp_eq_self (by norm_num)]
  · rw [headingDifference]
    have hd : (350 : ℚ) - 10 = 340 := by norm_num
    rw [hd]
    have hs : reduceDown (340 : ℚ) = reduceDown (340 - 360) := by
      rw [reduceDown, dif_pos (by norm_num)]
    rw [hs]
    have hd2 : (340 : ℚ) - 360 = -20 := by norm_num
    rw [hd2, reduceDown_eq_self (by norm_num), reduceUp_eq_self (by norm_num)]
  · intro x
    rw [headingDifference, sub_self, reduceDown_eq_self (by norm_num),
      reduceUp_eq_self (by norm_num)]

lemma loopDownFuel_adequate (q : ℚ) :
    ∃ n, loopDownFuel n (JSNum.fin q) = some (JSNum.fin (reduceDown q)) := by
  induction q using reduceDown.induct with
  | case1 d h ih =>
      obtain ⟨n, hn⟩ := ih
      refine ⟨n + 1, ?_⟩
      rw [loopDownFuel]
      have hg : (JSNum.fin d).gtQ 180 = true := by
        simp [JSNum.gtQ, h]
      rw [hg]
      simp only [if_true]
      have hs : (JSNum.fin d).subQ 360 = JSNum.fin (d - 360) := rfl
      have hstep : reduceDown d = reduceDown (d - 360) := by
        rw [reduceDown, dif_pos h]
      rw [hs, hn, hstep]
  | case2 d h =>
      refine ⟨0, ?_⟩
      rw [loopDownFuel]
      have hg : (JSNum.fin d).gtQ 180 = false := by
        simp [JSNum.gtQ, h]
      rw [hg]
      simp only [Bool.false_eq_true, if_false]
      rw [reduceDown, dif_neg h]

lemma loopUpFuel_adequate (q : ℚ) :
    ∃ n, loopUpFuel n (JSNum.fin q) = some (JSNum.fin (reduceUp q)) := by
  induction q using reduceUp.induct with
  | case1 d h ih =>
      obtain ⟨n, hn⟩ := ih
      refine ⟨n + 1, ?_⟩
      rw [loopUpFuel]
      have hg : (JSNum.fin d).ltQ (-180) = true := by
        simp [JSNum.ltQ, h]
      rw [hg]
      simp only [if_true]
      have hs : (JSNum.fin d).addQ 360 = JSNum.fin (d + 360) := rfl
      have hstep : reduceUp d = reduceUp (d + 360) := by
        rw [reduceUp, dif_pos h]
      rw [hs, hn, hstep]
  | case2 d h =>
      refine ⟨0, ?_⟩
      rw [loopUpFuel]
      have hg : (JSNum.fin d).ltQ (-180) = false := by
        simp [JSNum.ltQ, h]
      rw [hg]
      simp only [Bool.false_eq_true, if_false]
      rw [reduceUp, dif_neg h]

lemma loopDownFuel_posInf (n : ℕ) : loopDownFuel n JSNum.posInf = none := by
  induction n with
  | zero => rfl
  | succ n ih =>
      rw [loopDownFuel]
      have hg : JSNum.posInf.gtQ 180 = true := rfl
      rw [hg]
      simp only [if_true]
      have hs : JSNum.posInf.subQ 360 = JSNum.posInf := rfl
      rw [hs, ih]

/-- C10. The `while`-loop normalizations terminate exactly on finite inputs:
for every pair of finite arguments some iteration budget makes the fuel-indexed
loops of `headingDifference` return (and the value is the one computed by the
terminating model `headingDifference`); but on an input like `+Infinity` the
guard `diff > 180` stays true and `diff -= 360` leaves `Infinity` unchanged, so
the first loop returns within no budget at all — the embedded function is total
only under the finiteness hypothesis. The offset-normalization loops of
`performCalibration` are the same two loops (embedded as the same `reduceDown`
/ `reduceUp` used by `completeCalibration`), so the same analysis applies. -/
theorem loopTerminationSpec :
    (∀ a b : ℚ, ∃ n m : ℕ,
      headingDifferenceFuel n m (JSNum.fin a) (JSNum.fin b)
        = some (JSNum.fin (headingDifference a b))) ∧
    (∀ n : ℕ, loopDownFuel n JSNum.posInf = none) ∧
    (∀ n m : ℕ, headingDifferenceFuel n m (JSNum.fin 0) JSNum.posInf = none) := by
  refine ⟨?_, loopDownFuel_posInf, ?_⟩
  · intro a b
    obtain ⟨n, hn⟩ := loopDownFuel_adequate (b - a)
    obtain ⟨m, hm⟩ := loopUpFuel_adequate (reduceDown (b - a))
    refine ⟨n, m, ?_⟩
    rw [headingDifferenceFuel]
    have hs : (JSNum.fin b).subQ a = JSNum.fin (b - a) := rfl
    rw [hs, hn, Option.some_bind, hm, headingDifference]
  · intro n m
    rw [headingDifferenceFuel]
    have hs : JSNum.posInf.subQ 0 = JSNum.posInf := rfl
    rw [hs, loopDownFuel_posInf, Option.none_bind]

/-- C3. When all three latest readings are present but at least one has a
non-finite component, `updateOrientationAHRS` returns before touching
anything: the whole state — filter (`filterGen`/`filterUpdates`), failure
counter, prior-orientation anchor, published orientation and published solar
position — is unchanged and no calibration attempt starts. Moreover
`hasAllSensorReadings` is true iff all three arguments are non-null, and
`isValidSensorReading` is false exactly for null or a non-finite component. -/
theorem invalidSensorRejection :
    (∀ (table : Option (Fin 360 → Option SolarPosition)) (st : PState)
        (inp : StepInput),
      hasAllSensorReadings inp.gyro inp.accel inp.mag = true →
      (isValidSensorReading inp.gyro && isValidSensorReading inp.accel
        && isValidSensorReading inp.mag) = false →
      step table st inp = { state := st, calibrationStarted := false }) ∧
    (∀ g a m : Option SensorReading,
      hasAllSensorReadings g a m = true ↔ (g ≠ none ∧ a ≠ none ∧ m ≠ none)) ∧
    (∀ r : Option SensorReading,
      isValidSensorReading r = false ↔
        (r = none ∨ ∃ s, r = some s ∧
          (s.x.isFinite = false ∨ s.y.isFinite = false ∨ s.z.isFinite = false))) := by
  refine ⟨?_, ?_, ?_⟩
  · intro table st inp h1 h2
    simp [step, h1, h2]
  · intro g a m
    cases g <;> cases a <;> cases m <;> simp [hasAllSensorReadings]
  · intro r
    cases r with
    | none => simp [isValidSensorReading]
    | some s =>
        cases hx : s.x.isFinite <;> cases hy : s.y.isFinite <;>
          cases hz : s.z.isFinite <;> simp [isValidSensorReading, hx, hy, hz]

/-- C3, witness: with the gyroscope reading `{x: NaN, y: 0, z: 0}` and valid
accelerometer/magnetometer readings, all three readings are present, the
validity check fails, and the step leaves the initial state untouched. -/
theorem invalidSensorRejectionWitness :
    hasAllSensorReadings invalidSensorInput.gyro invalidSensorInput.accel
        invalidSensorInput.mag = true ∧
    (isValidSensorReading invalidSensorInput.gyro
      && isValidSensorReading invalidSensorInput.accel
      && isValidSensorReading invalidSensorInput.mag) = false ∧
    step none initState invalidSensorInput
      = { state := initState, calibrationStarted := false } :=
  ⟨rfl, rfl, invalidSensorRejection.1 none initState invalidSensorInput rfl rfl⟩

/-- C1, counterexample. The pipeline clamps pitch only inside
`smoothOrientation`, which runs only when a prior orientation exists. On the
very first successful update there is no prior, so the raw filter pitch is
published unclamped: from the initial state, a finite Euler pitch of 100°
publishes an `Orientation` with `pitch = 100 ∉ [-90, 90]` (heading is still
normalized). -/
theorem firstPublishPitchUnclamped :
    (step none initState steepPitchInput).state.published
      = some { heading := 0, pitch := 100, roll := 0 } ∧ ¬ ((100 : ℚ) ≤ 90) := by
  constructor
  · have hs : sensorsOk steepPitchInput = true := rfl
    have he : eulerOk steepPitchInput.euler = true := rfl
    rw [step_of_success hs he]
    rw [(stepSuccess_published _ _ _).1]
    have h0 : normalizeHeading 0 = 0 := normalizeHeading_of_mem le_rfl (by norm_num)
    have hp : pipeOrient
        { initState with filterUpdates := initState.filterUpdates + 1, failureCount := 0 }
        steepPitchInput = { heading := 0, pitch := 100, roll := 0 } := by
      rw [pipeOrient.eq_def]
      simp [initState, steepPitchInput, JSNum.toRat, applyDeclination, h0]
    rw [hp]
  · norm_num

/-- C1, amended. `smoothOrientation` always produces a heading in `[0, 360)`
and a pitch in `[-90, 90]` (for every prior/next pair and every smoothing
factor, a fortiori every factor in `[0, 1]`). Every `Orientation` the pipeline
publishes has heading in `[0, 360)`; its pitch lies in `[-90, 90]` whenever a
prior orientation existed at that update — i.e. for every published value
except possibly the very first, whose pitch is the raw (unclamped) filter
pitch. -/
theorem publishedOrientationBounds :
    (∀ (prior next : Orientation) (s : ℚ),
      0 ≤ (smoothOrientation prior next s).heading ∧
      (smoothOrientation prior next s).heading < 360 ∧
      -90 ≤ (smoothOrientation prior next s).pitch ∧
      (smoothOrientation prior next s).pitch ≤ 90) ∧
    (∀ (table : Option (Fin 360 → Option SolarPosition)) (st : PState)
        (inp : StepInput),
      sensorsOk inp = true → eulerOk inp.euler = true →
      ∃ o : Orientation,
        (step table st inp).state.published = some o ∧
        0 ≤ o.heading ∧ o.heading < 360 ∧
        (st.prior ≠ none → -90 ≤ o.pitch ∧ o.pitch ≤ 90)) := by
  refine ⟨smoothOrientation_bounds, ?_⟩
  intro table st inp hs he
  rw [step_of_success hs he]
  set st1 : PState :=
    { st with filterUpdates := st.filterUpdates + 1, failureCount := 0 } with hst1
  refine ⟨pipeOrient st1 inp, (stepSuccess_published table st1 inp).1, ?_⟩
  rw [pipeOrient.eq_def]
  have hprior : st1.prior = st.prior := rfl
  rw [hprior]
  cases hp : st.prior with
  | none =>
      simp only []
      refine ⟨(normalizeHeading_bounds _).1, (normalizeHeading_bounds _).2, ?_⟩
      intro hcon
      exact absurd rfl hcon
  | some p =>
      simp only []
      obtain ⟨h1, h2, h3, h4⟩ := smoothOrientation_bounds p
        { heading := applyDeclination inp.euler.heading.toRat st1.headingOffset
          pitch := inp.euler.pitch.toRat
          roll := inp.euler.roll.toRat } (1/5)
      exact ⟨h1, h2, fun _ => ⟨h3, h4⟩⟩

/-- C1, witness: a fully valid update from the initial state publishes an
orientation, with the bounds supplied by `publishedOrientationBounds`. -/
theorem publishedOrientationBoundsWitness :
    sensorsOk goodInput = true ∧ eulerOk goodInput.euler = true ∧
    ∃ o : Orientation,
      (step none initState goodInput).state.published = some o ∧
      0 ≤ o.heading ∧ o.heading < 360 ∧
      (initState.prior ≠ none → -90 ≤ o.pitch ∧ o.pitch ≤ 90) :=
  ⟨rfl, rfl, publishedOrientationBounds.2 none initState goodInput rfl rfl⟩

lemma stepSuccess_calStarted (table : Option (Fin 360 → Option SolarPosition))
    (st : PState) (inp : StepInput) :
    (stepSuccess table st inp).calibrationStarted
      = ((decide (st.lastCalibrationTime = 0)
          || (decide (|inp.euler.pitch.toRat| < CALIBRATION_PITCH_THRESHOLD)
              && decide (CALIBRATION_INTERVAL_MS ≤ inp.now - st.lastCalibrationTime)))
         && !st.calibrationInProgress) := by
  simp only [stepSuccess.eq_def]
  cases table <;> split <;> split <;> rfl

lemma stepSuccess_const_fields (table : Option (Fin 360 → Option SolarPosition))
    (st : PState) (inp : StepInput) :
    (stepSuccess table st inp).state.lastCalibrationTime = st.lastCalibrationTime ∧
    (stepSuccess table st inp).state.headingOffset = st.headingOffset ∧
    (stepSuccess table st inp).state.resetCount = st.resetCount ∧
    (stepSuccess table st inp).state.filterGen = st.filterGen ∧
    (stepSuccess table st inp).state.filterUpdates = st.filterUpdates := by
  simp only [stepSuccess.eq_def]
  cases table <;> split <;> split <;> simp

lemma step_calStarted_of_inProgress
    {st : PState} (h : st.calibrationInProgress = true)
    (table : Option (Fin 360 → Option SolarPosition)) (inp : StepInput) :
    (step table st inp).calibrationStarted = false := by
  rw [step]
  split
  · rfl
  · split
    · rfl
    · rw [stepFiltered]
      split
      · split <;> rfl
      · rw [stepSuccess_calStarted]
        simp [h]

lemma completeCalibration_none (st : PState) (h p : ℚ) (now : ℤ) :
    completeCalibration st h p none now
      = { st with calibrationInProgress := false } := rfl

lemma completeCalibration_fin (st : PState) (h p q : ℚ) (now : ℤ) :
    completeCalibration st h p (some (JSNum.fin q)) now
      = { st with
            headingOffset :=
              reduceUp (reduceDown ((if 45 < |p| then jsMod360 (q + 180) else q) - h))
            lastCalibrationTime := now
            isCalibrated := true
            calibrationInProgress := false } := rfl

lemma completeCalibration_notFinite {j : JSNum} (hj : j.isFinite = false)
    (st : PState) (h p : ℚ) (now : ℤ) :
    completeCalibration st h p (some j) now
      = { st with calibrationInProgress := false } := by
  cases j with
  | fin q => simp [JSNum.isFinite] at hj
  | posInf => rfl
  | negInf => rfl
  | nan => rfl

/-- C5, counterexample. The bootstrap test is `lastCalibrationTimeRef == 0`
("no calibration has ever completed"), not "the very first orientation ever
produced". If the first attempt fails (reference unavailable), the timestamp
stays 0, so a later successful update triggers another attempt regardless of
pitch: here the second orientation (a prior already exists), at pitch 80°
(not level), still starts a calibration attempt — contradicting the claimed
iff-condition. -/
theorem calibrationRetriggerBeforeSuccess :
    (completeCalibration (step none initState tiltedPitchInput).state 0 80 none 0).prior
      ≠ none ∧
    ¬ (|(80 : ℚ)| < CALIBRATION_PITCH_THRESHOLD) ∧
    (step none
      (completeCalibration (step none initState tiltedPitchInput).state 0 80 none 0)
      tiltedPitchInput).calibrationStarted = true := by
  have hs : sensorsOk tiltedPitchInput = true := rfl
  have he : eulerOk tiltedPitchInput.euler = true := rfl
  have hstep1 : step none initState tiltedPitchInput
      = stepSuccess none
          { initState with filterUpdates := initState.filterUpdates + 1
                           failureCount := 0 } tiltedPitchInput :=
    step_of_success hs he none initState
  refine ⟨?_, by norm_num [CALIBRATION_PITCH_THRESHOLD], ?_⟩
  · rw [completeCalibration_none, hstep1]
    have hpr := (stepSuccess_published none
      { initState with filterUpdates := initState.filterUpdates + 1
                       failureCount := 0 } tiltedPitchInput).2
    simp [hpr]
  · have hlc0 : (stepSuccess none
        { initState with filterUpdates := initState.filterUpdates + 1
                         failureCount := 0 } tiltedPitchInput).state.lastCalibrationTime
        = 0 := by
      rw [(stepSuccess_const_fields none
        { initState with filterUpdates := initState.filterUpdates + 1
                         failureCount := 0 } tiltedPitchInput).1]
      exact rfl
    rw [step_of_success hs he, stepSuccess_calStarted, completeCalibration_none, hstep1]
    simp [hlc0]

/-- C5, amended. On a successful update, a calibration attempt starts iff
(no calibration has ever completed successfully — the stored last-calibration
timestamp is still 0 — or both |pitch| < 15° and at least 30 s have elapsed
since the last successful calibration) and no attempt is currently in flight.
In particular the very first successful orientation (from the initial state)
always starts an attempt, and no attempt ever starts while one is in flight. -/
theorem calibrationTriggerSpec :
    (∀ (table : Option (Fin 360 → Option SolarPosition)) (st : PState)
        (inp : StepInput),
      sensorsOk inp = true → eulerOk inp.euler = true →
      ((step table st inp).calibrationStarted = true ↔
        ((st.lastCalibrationTime = 0 ∨
          (|inp.euler.pitch.toRat| < CALIBRATION_PITCH_THRESHOLD ∧
            CALIBRATION_INTERVAL_MS ≤ inp.now - st.lastCalibrationTime)) ∧
          st.calibrationInProgress = false))) ∧
    (∀ (table : Option (Fin 360 → Option SolarPosition)) (inp : StepInput),
      sensorsOk inp = true → eulerOk inp.euler = true →
      (step table initState inp).calibrationStarted = true) ∧
    (∀ (table : Option (Fin 360 → Option SolarPosition)) (st : PState)
        (inp : StepInput),
      st.calibrationInProgress = true →
      (step table st inp).calibrationStarted = false) := by
  have key : ∀ (table : Option (Fin 360 → Option SolarPosition)) (st : PState)
      (inp : StepInput),
      sensorsOk inp = true → eulerOk inp.euler = true →
      ((step table st inp).calibrationStarted = true ↔
        ((st.lastCalibrationTime = 0 ∨
          (|inp.euler.pitch.toRat| < CALIBRATION_PITCH_THRESHOLD ∧
            CALIBRATION_INTERVAL_MS ≤ inp.now - st.lastCalibrationTime)) ∧
          st.calibrationInProgress = false)) := by
    intro table st inp hs he
    rw [step_of_success hs he, stepSuccess_calStarted]
    simp [Bool.and_eq_true, Bool.or_eq_true, Bool.not_eq_true']
  refine ⟨key, ?_, fun table st inp h => step_calStarted_of_inProgress h table inp⟩
  · intro table inp hs he
    rw [key table initState inp hs he]
    simp [initState]

/-- C5, witness: a valid level update satisfies the hypotheses of
`calibrationTriggerSpec`, and from the initial state it starts an attempt. -/
theorem calibrationTriggerSpecWitness :
    sensorsOk goodInput = true ∧ eulerOk goodInput.euler = true ∧
    (step none initState goodInput).calibrationStarted = true :=
  ⟨rfl, rfl, calibrationTriggerSpec.2.1 none goodInput rfl rfl⟩

/-- C6, counterexample. The stored offset is normalized by the two while-loops
into the closed interval `[-180, 180]`, not `(-180, 180]`: completing a
calibration with reference heading 0, filter heading 180 and level pitch
stores `offset = -180`, whereas the representative of `0 - 180` in
`(-180, 180]` would be `+180`. -/
theorem calibrationOffsetBoundary :
    (completeCalibration initState 180 0 (some (JSNum.fin 0)) 5).headingOffset = -180 ∧
    (completeCalibration initState 180 0 (some (JSNum.fin 0)) 5).headingOffset
      ∉ Set.Ioc (-180 : ℚ) 180 := by
  have hoff : (completeCalibration initState 180 0 (some (JSNum.fin 0)) 5).headingOffset
      = -180 := by
    rw [completeCalibration_fin]
    show reduceUp (reduceDown
      ((if (45 : ℚ) < |(0 : ℚ)| then jsMod360 (0 + 180) else 0) - 180)) = -180
    rw [if_neg (by norm_num)]
    have h01 : (0 : ℚ) - 180 = -180 := by norm_num
    rw [h01, reduceDown_eq_self (by norm_num), reduceUp_eq_self (by norm_num)]
  refine ⟨hoff, ?_⟩
  rw [hoff, Set.mem_Ioc]
  norm_num

/-- C6, amended. A calibration attempt completing with a present, finite
reference heading stores an offset in the closed interval `[-180, 180]`
(`-180` is attainable) that is congruent mod 360 to `reference − filterHeading`
— with the reference first flipped by 180° (mod 360) when `|pitch| > 45` at
sampling — together with the completion timestamp, and marks the pipeline
calibrated; if the reference is unavailable or non-finite, the attempt ends
with no side effect besides clearing the in-flight flag: the stored offset and
last-calibration timestamp are unchanged. -/
theorem calibrationOffsetSpec :
    (∀ (st : PState) (ahrs pitch q : ℚ) (now : ℤ),
      -180 ≤ (completeCalibration st ahrs pitch (some (JSNum.fin q)) now).headingOffset ∧
      (completeCalibration st ahrs pitch (some (JSNum.fin q)) now).headingOffset ≤ 180 ∧
      (∃ k : ℤ,
        (completeCalibration st ahrs pitch (some (JSNum.fin q)) now).headingOffset
          = (if 45 < |pitch| then jsMod360 (q + 180) else q) - ahrs - 360 * k) ∧
      (completeCalibration st ahrs pitch (some (JSNum.fin q)) now).lastCalibrationTime = now ∧
      (completeCalibration st ahrs pitch (some (JSNum.fin q)) now).isCalibrated = true ∧
      (completeCalibration st ahrs pitch (some (JSNum.fin q)) now).calibrationInProgress
        = false) ∧
    (∀ (st : PState) (ahrs pitch : ℚ) (now : ℤ),
      completeCalibration st ahrs pitch none now
        = { st with calibrationInProgress := false }) ∧
    (∀ (st : PState) (ahrs pitch : ℚ) (j : JSNum) (now : ℤ), j.isFinite = false →
      completeCalibration st ahrs pitch (some j) now
        = { st with calibrationInProgress := false }) := by
  refine ⟨?_, completeCalibration_none, ?_⟩
  · intro st ahrs pitch q now
    rw [completeCalibration_fin]
    refine ⟨reduceUp_ge _, reduceUp_le _ (reduceDown_le _), ?_, rfl, rfl, rfl⟩
    obtain ⟨k1, hk1⟩ := reduceDown_exists_int
      ((if 45 < |pitch| then jsMod360 (q + 180) else q) - ahrs)
    obtain ⟨k2, hk2⟩ := reduceUp_exists_int
      (reduceDown ((if 45 < |pitch| then jsMod360 (q + 180) else q) - ahrs))
    refine ⟨k1 - k2, ?_⟩
    show reduceUp (reduceDown ((if 45 < |pitch| then jsMod360 (q + 180) else q) - ahrs)) = _
    rw [hk2, hk1]
    push_cast
    ring
  · intro st ahrs pitch j now hj
    exact completeCalibration_notFinite hj st ahrs pitch now

/-- C6, witness for the non-finite case of `calibrationOffsetSpec`: a NaN
reference heading leaves everything but the in-flight flag unchanged. -/
theorem calibrationOffsetSpecWitness :
    JSNum.isFinite JSNum.nan = false ∧
    completeCalibration initState 0 0 (some JSNum.nan) 7
      = { initState with calibrationInProgress := false } :=
  ⟨rfl, calibrationOffsetSpec.2.2 initState 0 0 JSNum.nan 7 rfl⟩

lemma runSteps_nil (table : Option (Fin 360 → Option SolarPosition)) (st : PState) :
    runSteps table st [] = st := rfl

lemma runSteps_cons (table : Option (Fin 360 → Option SolarPosition)) (st : PState)
    (i : StepInput) (is : List StepInput) :
    runSteps table st (i :: is) = runSteps table (step table st i).state is := rfl

lemma runSteps_append (table : Option (Fin 360 → Option SolarPosition)) (st : PState)
    (l1 l2 : List StepInput) :
    runSteps table st (l1 ++ l2) = runSteps table (runSteps table st l1) l2 := by
  rw [runSteps, List.foldl_append]
  rfl

lemma runSteps_degraded (table : Option (Fin 360 → Option SolarPosition)) :
    ∀ (inps : List StepInput) (st : PState),
    (∀ i ∈ inps, degradedInput i = true) →
    st.failureCount + inps.length < MAX_AHRS_FAILURES →
    runSteps table st inps
      = { st with filterUpdates := st.filterUpdates + inps.length
                  failureCount := st.failureCount + inps.length } := by
  intro inps
  induction inps with
  | nil =>
      intro st _ _
      cases st
      simp [runSteps]
  | cons i is ih =>
      intro st hb hlen
      rw [runSteps_cons, step_of_degraded (hb i (by simp))]
      have h1 : ¬ (MAX_AHRS_FAILURES ≤ st.failureCount + 1) := by
        simp only [MAX_AHRS_FAILURES, List.length_cons] at hlen ⊢
        omega
      rw [if_neg h1]
      rw [ih { st with filterUpdates := st.filterUpdates + 1
                       failureCount := st.failureCount + 1 }
        (fun j hj => hb j (by simp [hj]))
        (by simp only [MAX_AHRS_FAILURES, List.length_cons] at hlen ⊢; omega)]
      cases st
      simp [List.length_cons, PState.mk.injEq]
      omega

/-- C2. From a zero failure counter, ten consecutive valid-sensor updates whose
Euler angles each contain a non-finite component produce exactly one filter
reset, on the tenth failure and none before: after any proper prefix the reset
count and filter generation are unchanged and the failure counter equals the
prefix length, while after the tenth the filter object has been replaced
wholesale (generation bumped, update count zeroed), the failure counter is
zero and the reset count has increased exactly once; the pipeline then resumes
accepting updates (a subsequent valid update publishes an orientation), and
any successful update resets the failure counter to zero. -/
theorem failureResetProtocol :
    (∀ (table : Option (Fin 360 → Option SolarPosition)) (st0 : PState)
        (inps : List StepInput),
      st0.failureCount = 0 → inps.length = 10 →
      (∀ i ∈ inps, degradedInput i = true) →
      (∀ k, k < 10 →
        (runSteps table st0 (inps.take k)).resetCount = st0.resetCount ∧
        (runSteps table st0 (inps.take k)).failureCount = k ∧
        (runSteps table st0 (inps.take k)).filterGen = st0.filterGen) ∧
      (runSteps table st0 inps).resetCount = st0.resetCount + 1 ∧
      (runSteps table st0 inps).failureCount = 0 ∧
      (runSteps table st0 inps).filterGen = st0.filterGen + 1 ∧
      (runSteps table st0 inps).filterUpdates = 0 ∧
      (∀ inp, sensorsOk inp = true → eulerOk inp.euler = true →
        ∃ o, (step table (runSteps table st0 inps) inp).state.published = some o)) ∧
    (∀ (table : Option (Fin 360 → Option SolarPosition)) (st : PState)
        (inp : StepInput),
      sensorsOk inp = true → eulerOk inp.euler = true →
      (step table st inp).state.failureCount = 0) := by
  constructor
  · intro table st0 inps h0 hlen hb
    have htk : ∀ k, k < 10 → runSteps table st0 (inps.take k)
        = { st0 with filterUpdates := st0.filterUpdates + k, failureCount := k } := by
      intro k hk
      have hlt : (inps.take k).length = k := by
        rw [List.length_take, hlen]
        omega
      rw [runSteps_degraded table _ st0
        (fun i hi => hb i (List.take_subset k inps hi))
        (by rw [hlt, h0, MAX_AHRS_FAILURES]; omega)]
      rw [hlt, h0]
      simp
    refine ⟨fun k hk => by rw [htk k hk]; exact ⟨rfl, rfl, rfl⟩, ?_⟩
    obtain ⟨ilast, hil⟩ : ∃ i, inps.drop 9 = [i] := by
      rw [← List.length_eq_one]
      rw [List.length_drop, hlen]
    have hilmem : ilast ∈ inps := by
      refine List.drop_subset 9 inps ?_
      rw [hil]
      simp
    have hstep10 : runSteps table st0 inps
        = (step table (runSteps table st0 (inps.take 9)) ilast).state := by
      conv_lhs => rw [← List.take_append_drop 9 inps]
      rw [runSteps_append, hil, runSteps_cons, runSteps_nil]
    rw [hstep10, htk 9 (by norm_num), step_of_degraded (hb ilast hilmem),
      if_pos (by norm_num [MAX_AHRS_FAILURES])]
    refine ⟨rfl, rfl, rfl, rfl, ?_⟩
    intro inp hs he
    rw [step_of_success hs he]
    exact ⟨_, (stepSuccess_published _ _ _).1⟩
  · intro table st inp hs he
    rw [step_of_success hs he, stepSuccess_failureCount]

/-- C2, witness: ten replicated NaN-Euler updates from the initial state
satisfy the hypotheses, and the run performs exactly one reset. -/
theorem failureResetProtocolWitness :
    initState.failureCount = 0 ∧
    (List.replicate 10 badEulerInput).length = 10 ∧
    (∀ i ∈ List.replicate 10 badEulerInput, degradedInput i = true) ∧
    (runSteps none initState (List.replicate 10 badEulerInput)).resetCount
      = initState.resetCount + 1 := by
  have hb : ∀ i ∈ List.replicate 10 badEulerInput, degradedInput i = true := by
    intro i hi
    rw [List.eq_of_mem_replicate hi]
    rfl
  exact ⟨rfl, rfl, hb,
    (failureResetProtocol.1 none initState (List.replicate 10 badEulerInput) rfl rfl hb).2.1⟩

lemma solarTableAux_succ (sun : ℕ → SunPos) (start : ℤ) (n : ℕ) :
    solarTableAux sun start (n + 1)
      = (solarTableAux sun start n).set (⌊(sun n).azimuth⌋).toNat
          (some (solarEntry start sun n)) := by
  rw [solarTableAux, List.range_succ, List.foldl_append]
  rfl

lemma solarTableAux_length (sun : ℕ → SunPos) (start : ℤ) :
    ∀ n, (solarTableAux sun start n).length = 360 := by
  intro n
  induction n with
  | zero =>
      have h0 : solarTableAux sun start 0 = List.replicate 360 none := rfl
      rw [h0, List.length_replicate]
  | succ n ih => rw [solarTableAux_succ, List.length_set, ih]

lemma slotSpecAux_succ (sun : ℕ → SunPos) (start : ℤ) (n i : ℕ) :
    slotSpecAux sun start (n + 1) i
      = if (⌊(sun n).azimuth⌋).toNat = i then some (solarEntry start sun n)
        else slotSpecAux sun start n i := by
  rw [slotSpecAux, List.range_succ, List.filter_append]
  by_cases h : (⌊(sun n).azimuth⌋).toNat = i
  · rw [if_pos h]
    have hf : List.filter (fun m => decide ((⌊(sun m).azimuth⌋).toNat = i)) [n] = [n] := by
      simp [h]
    rw [hf, List.getLast?_concat]
    rfl
  · rw [if_neg h]
    have hf : List.filter (fun m => decide ((⌊(sun m).azimuth⌋).toNat = i)) [n] = [] := by
      simp [h]
    rw [hf, List.append_nil, slotSpecAux]

lemma solarTableAux_spec (sun : ℕ → SunPos) (start : ℤ) :
    ∀ n i, i < 360 →
    (solarTableAux sun start n)[i]? = some (slotSpecAux sun start n i) := by
  intro n
  induction n with
  | zero =>
      intro i hi
      have h0 : solarTableAux sun start 0 = List.replicate 360 none := rfl
      rw [h0, List.getElem?_eq_getElem (by rw [List.length_replicate]; exact hi),
        List.getElem_replicate]
      have hs : slotSpecAux sun start 0 i = none := rfl
      rw [hs]
  | succ n ih =>
      intro i hi
      rw [solarTableAux_succ, slotSpecAux_succ]
      by_cases h : (⌊(sun n).azimuth⌋).toNat = i
      · rw [if_pos h, h]
        rw [List.getElem?_set_eq_of_lt]
        rw [solarTableAux_length]
        exact hi
      · rw [if_neg h, List.getElem?_set_ne h, ih i hi]

/-- C9. `generateSolarTable` returns a table of exactly 360 slots; slot `i`
holds the entry `{time: start + m*60e3, elevation: round(elevation)}` of the
LAST minute `m` in the 24-hour window (1440 whole minutes from `start`) whose
azimuth bucket `floor(azimuth)` equals `i` — later writes overwrite earlier
ones — and slots no minute's azimuth reached remain `none`, distinguishable
from computed entries. The result is a pure function of the location's
per-minute sun positions and the start instant, hence deterministic for a
fixed latitude/longitude/start time. The hypothesis that each azimuth lies in
`[0, 360)` reflects the reference library's azimuth range; it is what makes a
JavaScript `table[azimuth] = …` write stay inside the 360-element array. -/
theorem generateSolarTableSpec :
    ∀ (sun : ℕ → SunPos) (start : ℤ),
      (∀ m, m < 1440 → 0 ≤ (sun m).azimuth ∧ (sun m).azimuth < 360) →
      (generateSolarTable sun start).length = 360 ∧
      (∀ i, i < 360 →
        (generateSolarTable sun start)[i]? = some (slotSpec sun start i)) := by
  intro sun start _
  refine ⟨solarTableAux_length sun start 1440, ?_⟩
  intro i hi
  exact solarTableAux_spec sun start 1440 i hi

/-- C9, witness: the constant sun position at azimuth 0, elevation 0 satisfies
the azimuth-range hypothesis, and the generated table has 360 slots with the
spec-described contents. -/
theorem generateSolarTableSpecWitness :
    (∀ m, m < 1440 → 0 ≤ (SunPos.mk 0 0).azimuth ∧ (SunPos.mk 0 0).azimuth < 360) ∧
    (generateSolarTable (fun _ => SunPos.mk 0 0) 0).length = 360 ∧
    (∀ i, i < 360 →
      (generateSolarTable (fun _ => SunPos.mk 0 0) 0)[i]?
        = some (slotSpec (fun _ => SunPos.mk 0 0) 0 i)) :=
  ⟨fun _ _ => by norm_num,
    generateSolarTableSpec (fun _ => SunPos.mk 0 0) 0 (fun _ _ => by norm_num)⟩

end Heliotrope
